import Mathlib

/-!
Verification model of `scripts/f2p_from_swegent_bundle.py`, the single-run
Fail2Pass checker for SWEGENT bundles.  The script parses a bundle directory
(issue descriptor, dockerfile, test files), provisions two git worktrees at
the recorded base revision, applies the gold patch to the `head` worktree,
builds and tests a docker image per side, classifies the before/after
outcomes, and records artifacts under a run directory.

The embedding below translates the script's pure logic directly and models
its effectful pipeline (`main`) as a function from an environment — the
bundle contents plus the results every external process invocation would
return — to an outcome, the list of external commands issued, and the list
of artifact files written.  External process results are represented as
`RunResult` values supplied by the environment, matching `_run`'s contract
of capturing exit status and output.
-/

namespace F2P

/-- Result of one external command invocation (the script's `RunResult`
dataclass produced by `_run`): success flag, exit code, captured output. -/
structure RunResult where
  ok : Bool
  exit_code : Int
  stdout : String
  stderr : String
deriving DecidableEq, Repr

/-- The outcome classifier `_classify(before_ok, after_ok)` of the script,
translated branch by branch. -/
def classify (before_ok after_ok : Bool) : String :=
  if (!before_ok) && after_ok then "fail2pass"
  else if (!before_ok) && (!after_ok) then "fail2fail"
  else if before_ok && after_ok then "pass2pass"
  else if before_ok && (!after_ok) then "pass2fail"
  else "error"

/-- JSON-like values, used to model the dictionaries and files the script
builds and writes (`meta`, the per-side outcome records, the report). -/
inductive Val where
  | null : Val
  | vbool : Bool → Val
  | vint : Int → Val
  | vstr : String → Val
  | vlist : List Val → Val
  | vobj : List (String × Val) → Val
deriving Repr

/-- Lookup in an association list modelling a Python dict whose keys are
pairwise distinct (all dicts built by the script have literal distinct
keys), first match wins. -/
def dlookup : List (String × Val) → String → Option Val
  | [], _ => none
  | (k, v) :: rest, key => if k = key then some v else dlookup rest key

/-- Python truthiness of a JSON-like value, as used by
`bool(before.get("test_ok"))` in the script. -/
def valTruthy : Option Val → Bool
  | none => false
  | some Val.null => false
  | some (Val.vbool b) => b
  | some (Val.vint n) => !(n = 0)
  | some (Val.vstr s) => !(s = "")
  | some (Val.vlist l) => !l.isEmpty
  | some (Val.vobj l) => !l.isEmpty

/-- Python truthiness of an optional string (`if not base_sha`). -/
def truthyS : Option String → Bool
  | none => false
  | some s => !(s = "")

/-- Python truthiness of an optional integer (`if issue_number`). -/
def truthyN : Option Nat → Bool
  | none => false
  | some n => !(n = 0)

/-- Literal-prefix matcher: `stripPre p s` returns the remainder of `s`
after the literal character sequence `p`, or `none` when `p` is not an
initial segment of `s`. -/
def stripPre : List Char → List Char → Option (List Char)
  | [], s => some s
  | _ :: _, [] => none
  | p :: ps, c :: cs => if c = p then stripPre ps cs else none

/-- String begins with the given literal (Python `str.startswith`,
fnmatch patterns of the form `lit*`). -/
def sStarts (s p : String) : Bool := (stripPre p.data s.data).isSome

/-- String ends with the given literal (fnmatch patterns `*lit`). -/
def sEnds (s p : String) : Bool :=
  (stripPre p.data.reverse s.data.reverse).isSome

/-- Python `str.strip()`: drop whitespace from both ends. -/
def trimS (s : String) : String :=
  String.mk (((s.data.dropWhile Char.isWhitespace).reverse.dropWhile
    Char.isWhitespace).reverse)

/-- Python `str.split()` with no separator: whitespace-delimited words,
empty tokens discarded. -/
def splitWsCh : List Char → List Char → List String
  | [], acc => if acc.isEmpty then [] else [String.mk acc.reverse]
  | c :: cs, acc =>
    if c.isWhitespace then
      if acc.isEmpty then splitWsCh cs [] else String.mk acc.reverse :: splitWsCh cs []
    else splitWsCh cs (c :: acc)

/-- Python `str.lower()` (ASCII case folding; image tags here are ASCII). -/
def toLowerS (s : String) : String := String.mk (s.data.map Char.toLower)

/-- Filename match for the glob pattern `*.dockerfile`. -/
def isDockerfileName (n : String) : Bool := sEnds n ".dockerfile"

/-- Filename match for the glob pattern `issue_*.json`. -/
def isIssueJsonName (n : String) : Bool :=
  sStarts n "issue_" && sEnds n ".json"

/-- Filename match for the glob pattern `test*.py`. -/
def isTestPyName (n : String) : Bool := sStarts n "test" && sEnds n ".py"

/-- Filename match for the glob pattern `*.py`. -/
def isPyName (n : String) : Bool := sEnds n ".py"

/-- Lexicographic comparison of character lists by code point, the ordering
Python uses to compare strings (and hence same-directory paths). -/
def lexLeCh : List Char → List Char → Bool
  | [], _ => true
  | _ :: _, [] => false
  | a :: as, b :: bs =>
    if a.toNat = b.toNat then lexLeCh as bs else decide (a.toNat < b.toNat)

/-- Lexicographic order on strings by code point. -/
def lexLe (a b : String) : Bool := lexLeCh a.data b.data

/-- The sorting relation used by the model of Python's `sorted`. -/
def LexLe (a b : String) : Prop := lexLe a b = true

instance : DecidableRel LexLe := fun a b => by unfold LexLe; infer_instance

/-- Python's `sorted` on same-directory paths: lexicographic ascending order
of the filenames. -/
def sortedNames (l : List String) : List String :=
  List.insertionSort LexLe l

/-- Sorted `*.dockerfile` candidates of a bundle directory listing
(`sorted(bundle_dir.glob("*.dockerfile"))` in `_pick_dockerfile`). -/
def dockerCands (files : List String) : List String :=
  sortedNames (files.filter isDockerfileName)

/-- Sorted `issue_*.json` candidates (`_load_issue_json`). -/
def issueCands (files : List String) : List String :=
  sortedNames (files.filter isIssueJsonName)

/-- The script's `_pick_dockerfile`: first sorted candidate, `none` models
the `FileNotFoundError` raised when no candidate exists. -/
def pick_dockerfile (files : List String) : Option String :=
  (dockerCands files).head?

/-- The script's `_pick_tests`: all sorted `test*.py` files when any exist,
otherwise all sorted `*.py` files except `issue_*` descriptors. -/
def pick_tests (files : List String) : List String :=
  let tests := sortedNames (files.filter isTestPyName)
  if tests.isEmpty then
    (sortedNames (files.filter isPyName)).filter (fun n => !sStarts n "issue_")
  else tests

/-- One `[^/]+/` piece of the regular expression in
`_parse_repo_from_issue_url`: a maximal nonempty run of non-slash
characters followed by a required `/` (greedy matching followed by a
mandatory `/` admits no other parse).  Returns the run and the remainder
after the slash. -/
def seg (s : List Char) : Option (List Char × List Char) :=
  match s.takeWhile (fun c => !(c = '/')), s.dropWhile (fun c => !(c = '/')) with
  | o1 :: os, '/' :: r1 => some (o1 :: os, r1)
  | _, _ => none

/-- The `(?:issues|pull)/\d+` tail of the regular expression: a literal
alternation followed by at least one digit; the search is unanchored, so
trailing text is ignored.  Digits are modelled as ASCII digits; the regex
class ranges over Unicode decimal digits, but the matcher and the
specification form below use the same predicate, so the correspondence is
unaffected. -/
def numTail (r2 : List Char) : Bool :=
  match stripPre "issues/".data r2 <|> stripPre "pull/".data r2 with
  | some (d :: _) => d.isDigit
  | _ => false

/-- One attempt of the regular expression
`github\.com/([^/]+/[^/]+)/(?:issues|pull)/\d+` at the start of `s`,
returning the text of capture group 1 on success: the literal host, two
`[^/]+/` segments (whose runs form the capture), and the
issues-or-pull-number tail. -/
def matchAt (s : List Char) : Option (List Char) :=
  (stripPre "github.com/".data s).bind (fun r0 =>
    (seg r0).bind (fun p =>
      (seg p.2).bind (fun q =>
        if numTail q.2 then some (p.1 ++ '/' :: q.1) else none)))

/-- `re.search` over the pattern above: try every start position from the
left, returning the first successful capture. -/
def reSearch : List Char → Option (List Char)
  | [] => matchAt []
  | c :: t =>
    match matchAt (c :: t) with
    | some v => some v
    | none => reSearch t

/-- The script's `_parse_repo_from_issue_url`: extract `owner/repo` from an
issue/PR URL, or fail with a `ValueError` (modelled as `Except.error`) when
the pattern does not occur. -/
def parse_repo_from_issue_url (url : String) : Except String String :=
  match reSearch url.data with
  | some g => Except.ok (String.mk g)
  | none => Except.error ("Cannot parse repo from url: " ++ url)

/-- Specification-side form of a parsable issue/PR URL, written from the
spec's words: the URL contains `.../<owner>/<repo>/(issues|pull)/<number>`,
with the host `github.com/` immediately preceding `<owner>` (as in the
spec's accompanying example), `<owner>` and `<repo>` nonempty slash-free
segments, and `<number>` starting with a digit. -/
def SpecForm (s : List Char) : Prop :=
  ∃ a owner repo mid d b,
    s = a ++ ("github.com/".data ++ (owner ++ ('/' :: (repo ++ ('/' :: (mid ++ ('/' :: d :: b))))))) ∧
    owner ≠ [] ∧ repo ≠ [] ∧ '/' ∉ owner ∧ '/' ∉ repo ∧
    (mid = "issues".data ∨ mid = "pull".data) ∧ d.isDigit = true

/-- A linked-PR record inside the issue descriptor: `base_sha`, optional
`head_sha`, and `patch` text, each possibly absent. -/
structure PR where
  base_sha : Option String
  head_sha : Option String
  patch : Option String
deriving DecidableEq, Repr

/-- The parsed issue descriptor (`issue_*.json`): `number`, `url`, and the
`linked_prs` list, each possibly absent. -/
structure Issue where
  number : Option Nat
  url : Option String
  linked_prs : Option (List PR)
deriving DecidableEq, Repr

/-- External commands the pipeline can issue, with the arguments the claims
depend on (clone URL and destination, worktree destination and checkout
revision, patch path, image tag, test command line). -/
inductive Cmd where
  | clone : String → String → Cmd
  | fetch : Cmd
  | worktreeAdd : String → String → Cmd
  | gitApply : String → Cmd
  | dockerBuild : String → String → Cmd
  | dockerRun : String → List String → Cmd
  | worktreeRemove : String → Cmd
deriving DecidableEq, Repr

/-- Termination of one invocation of the script: `died` is `_die` (message
to stderr, `sys.exit(2)`), `exc` an uncaught exception (interpreter exit
status 1), `finished` a normal return carrying the report written to
`f2p_report.json`. -/
inductive Outcome where
  | died : Int → String → Outcome
  | exc : String → Outcome
  | finished : List (String × Val) → Outcome

/-- Process exit status of an outcome. -/
def Outcome.exitCode : Outcome → Int
  | died c _ => c
  | exc _ => 1
  | finished _ => 0

/-- Whether the run completed and produced the terminal report. -/
def Outcome.isFinished : Outcome → Bool
  | finished _ => true
  | _ => false

/-- Environment of one invocation: the command-line inputs, the bundle
directory contents, and the result every external process invocation would
return.  `issueJson` is the parse result of the first `issue_*.json`
(`none` models a JSON decode error). -/
structure Env where
  bundleDir : String
  workDir : String
  bundleExists : Bool
  gitFound : Bool
  dockerFound : Bool
  files : List String
  issueJson : Option Issue
  now : String
  keepWorkdir : Bool
  pytestArgs : String
  clone : RunResult
  fetch : RunResult
  wtBase : RunResult
  wtHead : RunResult
  patchApply : RunResult
  buildBefore : RunResult
  testBefore : RunResult
  buildAfter : RunResult
  testAfter : RunResult

/-- Result of one invocation: the outcome, the external commands issued in
order, and the artifact files written (name and content) in order. -/
structure MainOut where
  outcome : Outcome
  cmds : List Cmd
  written : List (String × Val)

/-- The run identifier of line 154: `issue_<number>-<ts>` when the issue
number is truthy, else `bundle-<ts>`. -/
def mk_run_id (number : Option Nat) (ts : String) : String :=
  if truthyN number then "issue_" ++ toString (number.getD 0) ++ "-" ++ ts
  else "bundle-" ++ ts

/-- The `meta` dict written to `meta.json` (lines 158 through 168). -/
def metaObj (run_id bundleDir repo issue_url : String) (number : Option Nat)
    (base_sha : String) (head_sha : Option String) (dockerfile : String)
    (tests : List String) : List (String × Val) :=
  [("run_id", Val.vstr run_id),
   ("bundle_dir", Val.vstr bundleDir),
   ("repo", Val.vstr repo),
   ("issue_url", Val.vstr issue_url),
   ("issue_number", match number with | some n => Val.vint n | none => Val.null),
   ("base_sha", Val.vstr base_sha),
   ("head_sha", match head_sha with | some h => Val.vstr h | none => Val.null),
   ("dockerfile", Val.vstr dockerfile),
   ("tests", Val.vlist (tests.map Val.vstr))]

/-- What one call of the nested `build_and_test` closure produces: the
per-side outcome record, the docker commands issued, and the log files
written. -/
structure BTOut where
  record : List (String × Val)
  cmds : List Cmd
  logs : List (String × Val)

/-- The nested `build_and_test(label, worktree)` closure (lines 224-249):
build the per-side image; on build failure return immediately with
`build_ok=False`, `test_ok=False`, `test_exit=None` and never run the test
phase; on build success run pytest in a disposable container and record its
outcome. -/
def build_and_test (run_id label dockerfileName : String)
    (testNames pytest_args : List String) (b t : RunResult) : BTOut :=
  let image := toLowerS ("swegent-f2p:" ++ run_id ++ "-" ++ label)
  if !b.ok then
    { record := [("label", Val.vstr label), ("image", Val.vstr image),
        ("build_ok", Val.vbool false), ("test_ok", Val.vbool false),
        ("build_exit", Val.vint b.exit_code), ("test_exit", Val.null)],
      cmds := [Cmd.dockerBuild image dockerfileName],
      logs := [("docker_build_" ++ label ++ ".stdout.txt", Val.vstr b.stdout),
               ("docker_build_" ++ label ++ ".stderr.txt", Val.vstr b.stderr)] }
  else
    { record := [("label", Val.vstr label), ("image", Val.vstr image),
        ("build_ok", Val.vbool true), ("test_ok", Val.vbool t.ok),
        ("build_exit", Val.vint b.exit_code), ("test_exit", Val.vint t.exit_code)],
      cmds := [Cmd.dockerBuild image dockerfileName,
               Cmd.dockerRun image (["pytest"] ++ pytest_args ++ testNames)],
      logs := [("docker_build_" ++ label ++ ".stdout.txt", Val.vstr b.stdout),
               ("docker_build_" ++ label ++ ".stderr.txt", Val.vstr b.stderr),
               ("pytest_" ++ label ++ ".stdout.txt", Val.vstr t.stdout),
               ("pytest_" ++ label ++ ".stderr.txt", Val.vstr t.stderr)] }

/-- Parsing of the `--pytest-args` option (line 222). -/
def parsePytestArgs (s : String) : List String :=
  if trimS s = "" then [] else splitWsCh (trimS s).data []

/-- The workspace-and-test phase of `main` (lines 153 through 276), entered
once the bundle has been loaded and validated: create the run directory and
`meta.json`, clone, fetch, write the patch, create the `base` and `head`
worktrees — both pinned to `base_sha` (lines 194 and 201) — apply the patch
in `head`, build and test each side, classify, and write the report.  Every
`_die` is a `died 2` outcome; each step logs its stdout/stderr first. -/
def runPhase (env : Env) (repo issue_url : String) (number : Option Nat)
    (base_sha : String) (head_sha : Option String) (patch_text dockerfile : String)
    (test_files : List String) : MainOut :=
  let run_id := mk_run_id number env.now
  let run_root := env.workDir ++ "/" ++ run_id
  let meta := metaObj run_id env.bundleDir repo issue_url number base_sha head_sha
    dockerfile test_files
  let w0 : List (String × Val) := [("meta.json", Val.vobj meta)]
  let origin_url := "https://github.com/" ++ repo ++ ".git"
  let c0 : List Cmd := [Cmd.clone origin_url (run_root ++ "/repo")]
  let w1 := w0 ++ [("git_clone.stdout.txt", Val.vstr env.clone.stdout),
                   ("git_clone.stderr.txt", Val.vstr env.clone.stderr)]
  if !env.clone.ok then
    ⟨Outcome.died 2 ("git clone failed (see logs under " ++ run_root ++ ")"), c0, w1⟩
  else
    let c1 := c0 ++ [Cmd.fetch]
    let w2 := w1 ++ [("git_fetch.stdout.txt", Val.vstr env.fetch.stdout),
                     ("git_fetch.stderr.txt", Val.vstr env.fetch.stderr)]
    if !env.fetch.ok then ⟨Outcome.died 2 "git fetch failed", c1, w2⟩
    else
      let w3 := w2 ++ [("gold_patch.diff", Val.vstr patch_text)]
      let c2 := c1 ++ [Cmd.worktreeAdd (run_root ++ "/base") base_sha]
      let w4 := w3 ++ [("git_worktree_base.stdout.txt", Val.vstr env.wtBase.stdout),
                       ("git_worktree_base.stderr.txt", Val.vstr env.wtBase.stderr)]
      if !env.wtBase.ok then ⟨Outcome.died 2 "git worktree add (base) failed", c2, w4⟩
      else
        let c3 := c2 ++ [Cmd.worktreeAdd (run_root ++ "/head") base_sha]
        let w5 := w4 ++ [("git_worktree_head.stdout.txt", Val.vstr env.wtHead.stdout),
                         ("git_worktree_head.stderr.txt", Val.vstr env.wtHead.stderr)]
        if !env.wtHead.ok then ⟨Outcome.died 2 "git worktree add (head) failed", c3, w5⟩
        else
          let c4 := c3 ++ [Cmd.gitApply (run_root ++ "/gold_patch.diff")]
          let w6 := w5 ++ [("git_apply_patch.stdout.txt", Val.vstr env.patchApply.stdout),
                           ("git_apply_patch.stderr.txt", Val.vstr env.patchApply.stderr)]
          if !env.patchApply.ok then
            ⟨Outcome.died 2 "git apply patch failed (see git_apply_patch.stderr.txt)", c4, w6⟩
          else
            let pytest_args := parsePytestArgs env.pytestArgs
            let bt1 := build_and_test run_id "before" dockerfile test_files pytest_args
              env.buildBefore env.testBefore
            let bt2 := build_and_test run_id "after" dockerfile test_files pytest_args
              env.buildAfter env.testAfter
            let status := classify (valTruthy (dlookup bt1.record "test_ok"))
              (valTruthy (dlookup bt2.record "test_ok"))
            let report := meta ++
              [("status", Val.vstr status), ("before", Val.vobj bt1.record),
               ("after", Val.vobj bt2.record),
               ("paths", Val.vobj
                 [("run_root", Val.vstr run_root),
                  ("base_worktree", Val.vstr (run_root ++ "/base")),
                  ("head_worktree", Val.vstr (run_root ++ "/head"))])]
            let cleanup := if env.keepWorkdir then []
              else [Cmd.worktreeRemove (run_root ++ "/base"),
                    Cmd.worktreeRemove (run_root ++ "/head")]
            ⟨Outcome.finished report, c4 ++ bt1.cmds ++ bt2.cmds ++ cleanup,
             w6 ++ bt1.logs ++ bt2.logs ++ [("f2p_report.json", Val.vobj report)]⟩

/-- The script's `main` (lines 113 through 276): the argument and bundle
validation chain, each failing check reproducing the script's `_die`
message or uncaught exception, followed by `runPhase`.  The first linked-PR
record is taken unconditionally (`pr0 = linked_prs[0]`, line 139). -/
def main (env : Env) : MainOut :=
  if !env.bundleExists then
    ⟨Outcome.died 2 ("Bundle dir not found: " ++ env.bundleDir), [], []⟩
  else if !env.gitFound then
    ⟨Outcome.died 2 "Missing required tool: git. Please install it first.", [], []⟩
  else if !env.dockerFound then
    ⟨Outcome.died 2 "Missing required tool: docker. Please install it first.", [], []⟩
  else match issueCands env.files with
  | [] => ⟨Outcome.exc ("No issue_*.json found under " ++ env.bundleDir), [], []⟩
  | _ :: _ =>
    match env.issueJson with
    | none => ⟨Outcome.exc "json.decoder.JSONDecodeError", [], []⟩
    | some issue =>
      let issue_url := issue.url.getD ""
      match parse_repo_from_issue_url issue_url with
      | Except.error e => ⟨Outcome.exc e, [], []⟩
      | Except.ok repo =>
        match issue.linked_prs.getD [] with
        | [] => ⟨Outcome.died 2 "issue_*.json has no linked_prs; cannot get base/head sha.", [], []⟩
        | pr0 :: _ =>
          if !truthyS pr0.base_sha then
            ⟨Outcome.died 2 "linked_prs[0] missing base_sha.", [], []⟩
          else if trimS ((pr0.patch).getD "") = "" then
            ⟨Outcome.died 2 "linked_prs[0] missing patch text; cannot apply fix on top of base_sha.", [], []⟩
          else match dockerCands env.files with
          | [] => ⟨Outcome.exc ("No *.dockerfile found under " ++ env.bundleDir), [], []⟩
          | dockerfile :: _ =>
            match pick_tests env.files with
            | [] => ⟨Outcome.died 2 ("No test*.py found under " ++ env.bundleDir), [], []⟩
            | t0 :: ts =>
              runPhase env repo issue_url issue.number ((pr0.base_sha).getD "")
                pr0.head_sha ((pr0.patch).getD "") dockerfile (t0 :: ts)

/-- The classification label carried by the terminal report, when the run
finished. -/
def statusOf (o : MainOut) : Option String :=
  match o.outcome with
  | Outcome.finished r =>
    match dlookup r "status" with
    | some (Val.vstr s) => some s
    | _ => none
  | _ => none

/-- The report of a finished run (empty list otherwise). -/
def reportOf (o : MainOut) : List (String × Val) :=
  match o.outcome with
  | Outcome.finished r => r
  | _ => []

/-- The content of the `meta.json` artifact of a run (empty otherwise). -/
def metaOf (o : MainOut) : List (String × Val) :=
  match dlookup o.written "meta.json" with
  | some (Val.vobj m) => m
  | _ => []

/-- Hypotheses stating that an invocation gets past the bundle-loading and
validation stage of `main` (bundle directory present, tools installed,
issue descriptor found and parsed, repo reference parsed, first linked-PR
record carrying a truthy base revision and nonblank patch text, dockerfile
and test files found): everything before the clone. -/
structure Reaches (env : Env) (issue : Issue) (repo : String) (pr0 : PR)
    (rest : List PR) : Prop where
  bundleExists : env.bundleExists = true
  gitFound : env.gitFound = true
  dockerFound : env.dockerFound = true
  issueFile : issueCands env.files ≠ []
  issueParsed : env.issueJson = some issue
  repoParsed : parse_repo_from_issue_url (issue.url.getD "") = Except.ok repo
  linked : issue.linked_prs.getD [] = pr0 :: rest
  baseTruthy : truthyS pr0.base_sha = true
  patchNonblank : trimS ((pr0.patch).getD "") ≠ ""
  dockerfileFound : dockerCands env.files ≠ []
  testsFound : pick_tests env.files ≠ []

/-- A successful process result, for concrete test environments. -/
def okR : RunResult := ⟨true, 0, "out", "err"⟩

/-- A failing process result, for concrete test environments. -/
def failR : RunResult := ⟨false, 1, "boom-out", "boom-err"⟩

/-- A concrete linked-PR record with base revision, head revision and patch
all present. -/
def pr0c : PR := ⟨some "abc123", some "def456", some "diff --git a/f b/f\n"⟩

/-- A concrete issue descriptor as found in a well-formed bundle. -/
def issue0 : Issue :=
  ⟨some 256, some "https://github.com/always-further/AgentUp/issues/256", some [pr0c]⟩

/-- A concrete environment in which every stage succeeds except the
`before` test run: the fail2pass scenario. -/
def env0 : Env :=
  { bundleDir := "/bundles/one", workDir := "/w", bundleExists := true,
    gitFound := true, dockerFound := true,
    files := ["claude.dockerfile", "issue_256.json", "test256.py"],
    issueJson := some issue0, now := "20251012T000000Z", keepWorkdir := false,
    pytestArgs := "-q", clone := okR, fetch := okR, wtBase := okR, wtHead := okR,
    patchApply := okR, buildBefore := okR, testBefore := failR,
    buildAfter := okR, testAfter := okR }

/-- `env0` with patch application failing. -/
def env5 : Env := { env0 with patchApply := failR }

/-- `env0` with the `before` container build failing. -/
def env2 : Env := { env0 with buildBefore := failR }

/-- `env0` with the `before` tests passing and the `after` container build
failing: the spec's scenario D (pass2fail via an after-side build
failure). -/
def env2a : Env := { env0 with testBefore := okR, buildAfter := failR }

/-- A fully valid linked-PR record placed second in `issue4`. -/
def prGood : PR := ⟨some "goodsha", none, some "diff --git a/x b/x\n"⟩

/-- An issue descriptor whose first linked-PR record has an empty base
revision while the second record is fully valid. -/
def issue4 : Issue :=
  ⟨some 7, some "https://github.com/o/r/pull/7",
   some [⟨some "", some "h1", some ""⟩, prGood]⟩

/-- `env0` pointed at `issue4` (first linked-PR record invalid, second
valid). -/
def env4 : Env := { env0 with issueJson := some issue4 }

/-- Two environments describing two distinct invocations (different bundle
directories) that share the issue number and the timestamp second. -/
def env8a : Env := { env0 with bundleDir := "/bundles/copyA" }

/-- Second of the two distinct invocations sharing number and timestamp. -/
def env8b : Env := { env0 with bundleDir := "/bundles/copyB" }

/-! Helper lemmas about the sorting order. -/

lemma lexLeCh_refl : ∀ l : List Char, lexLeCh l l = true
  | [] => rfl
  | _ :: as => by simp [lexLeCh, lexLeCh_refl as]

lemma lexLeCh_total : ∀ a b : List Char, lexLeCh a b = true ∨ lexLeCh b a = true
  | [], _ => Or.inl rfl
  | _ :: _, [] => Or.inr rfl
  | a :: as, b :: bs => by
    by_cases h : a.toNat = b.toNat
    · have h2 : b.toNat = a.toNat := h.symm
      rcases lexLeCh_total as bs with ih | ih
      · exact Or.inl (by simp only [lexLeCh, if_pos h]; exact ih)
      · exact Or.inr (by simp only [lexLeCh, if_pos h2]; exact ih)
    · have h2 : ¬ b.toNat = a.toNat := fun e => h e.symm
      rcases Nat.lt_or_ge a.toNat b.toNat with hlt | hge
      · exact Or.inl (by simp only [lexLeCh, if_neg h]; exact decide_eq_true hlt)
      · have hlt2 : b.toNat < a.toNat := Nat.lt_of_le_of_ne hge h2
        exact Or.inr (by simp only [lexLeCh, if_neg h2]; exact decide_eq_true hlt2)

lemma lexLeCh_trans : ∀ a b c : List Char,
    lexLeCh a b = true → lexLeCh b c = true → lexLeCh a c = true
  | [], _, _, _, _ => rfl
  | _ :: _, [], _, h, _ => by simp [lexLeCh] at h
  | _ :: _, _ :: _, [], _, h => by simp [lexLeCh] at h
  | a :: as, b :: bs, c :: cs, h1, h2 => by
    by_cases hab : a.toNat = b.toNat <;> by_cases hbc : b.toNat = c.toNat
    · have hac : a.toNat = c.toNat := hab.trans hbc
      simp only [lexLeCh, if_pos hab] at h1
      simp only [lexLeCh, if_pos hbc] at h2
      simp only [lexLeCh, if_pos hac]
      exact lexLeCh_trans as bs cs h1 h2
    · have hac : ¬ a.toNat = c.toNat := fun e => hbc (hab ▸ e)
      simp only [lexLeCh, if_neg hbc, decide_eq_true_eq] at h2
      simp only [lexLeCh, if_neg hac]
      exact decide_eq_true (hab ▸ h2)
    · have hac : ¬ a.toNat = c.toNat := fun e => hab (hbc ▸ e)
      simp only [lexLeCh, if_neg hab, decide_eq_true_eq] at h1
      simp only [lexLeCh, if_neg hac]
      exact decide_eq_true (hbc ▸ h1)
    · simp only [lexLeCh, if_neg hab, decide_eq_true_eq] at h1
      simp only [lexLeCh, if_neg hbc, decide_eq_true_eq] at h2
      have hlt : a.toNat < c.toNat := Nat.lt_trans h1 h2
      simp only [lexLeCh, if_neg (Nat.ne_of_lt hlt)]
      exact decide_eq_true hlt

instance : IsTotal String LexLe := ⟨fun a b => lexLeCh_total a.data b.data⟩

instance : IsTrans String LexLe :=
  ⟨fun a b c h1 h2 => lexLeCh_trans a.data b.data c.data h1 h2⟩

lemma lexLe_refl (a : String) : LexLe a a := lexLeCh_refl a.data

/-! Helper lemmas about dict lookup. -/

lemma dlookup_append_left {l1 : List (String × Val)} (l2 : List (String × Val))
    {k : String} {v : Val} (h : dlookup l1 k = some v) :
    dlookup (l1 ++ l2) k = some v := by
  induction l1 with
  | nil => simp [dlookup] at h
  | cons a t ih =>
    obtain ⟨a1, a2⟩ := a
    by_cases hk : a1 = k
    · simp only [dlookup, if_pos hk] at h
      simp only [List.cons_append, dlookup, if_pos hk]
      exact h
    · simp only [dlookup, if_neg hk] at h
      simp only [List.cons_append, dlookup, if_neg hk]
      exact ih h

lemma dlookup_append_none {l1 : List (String × Val)} (l2 : List (String × Val))
    {k : String} (h : dlookup l1 k = none) :
    dlookup (l1 ++ l2) k = dlookup l2 k := by
  induction l1 with
  | nil => simp
  | cons a t ih =>
    obtain ⟨a1, a2⟩ := a
    by_cases hk : a1 = k
    · simp [dlookup, if_pos hk] at h
    · simp only [dlookup, if_neg hk] at h
      simp only [List.cons_append, dlookup, if_neg hk]
      exact ih h

lemma dlookup_meta_status (run_id bundleDir repo issue_url : String)
    (number : Option Nat) (base_sha : String) (head_sha : Option String)
    (dockerfile : String) (tests : List String) :
    dlookup (metaObj run_id bundleDir repo issue_url number base_sha head_sha
      dockerfile tests) "status" = none := by
  simp [metaObj, dlookup]

/-! Helper lemmas about sorted candidate lists. -/

lemma mem_sortedNames {l : List String} {x : String} :
    x ∈ sortedNames l ↔ x ∈ l := List.Perm.mem_iff (List.perm_insertionSort LexLe l)

lemma sorted_sortedNames (l : List String) : List.Sorted LexLe (sortedNames l) :=
  List.sorted_insertionSort LexLe l

/-- C1 helper: the four boolean cases of `classify`. -/
lemma classify_mem (b a : Bool) :
    classify b a = "fail2pass" ∨ classify b a = "fail2fail" ∨
    classify b a = "pass2pass" ∨ classify b a = "pass2fail" := by
  cases b <;> cases a <;> simp [classify]

/-- C1: the outcome classifier is a total pure function on two booleans
matching the table — (false,true) fail2pass, (false,false) fail2fail,
(true,true) pass2pass, (true,false) pass2fail — and never returns "error"
on boolean inputs. -/
theorem C1_classify_total :
    classify false true = "fail2pass" ∧ classify false false = "fail2fail" ∧
    classify true true = "pass2pass" ∧ classify true false = "pass2fail" ∧
    ∀ b a : Bool, classify b a ≠ "error" := by decide

/-- C6 counterexample: a bundle with two `test*.py` candidates selects both
(in ascending order), not exactly one — refuting "exactly one test file
(the lexicographically least) is selected". -/
theorem C6_cex :
    pick_tests ["test_b.py", "test_a.py", "x.dockerfile"] = ["test_a.py", "test_b.py"] ∧
    (pick_tests ["test_b.py", "test_a.py", "x.dockerfile"]).length ≠ 1 := by decide

/-- C6 (amended): dockerfile selection takes lexicographic ascending order
with the first match winning (exactly one, the least); test selection is
deterministic and sorted ascending but keeps every `test*.py` candidate
rather than reducing to one — and when no `test*.py` candidate exists it
keeps every non-descriptor `*.py` file. -/
theorem C6_selection (files : List String) (d : String)
    (h : pick_dockerfile files = some d) :
    (isDockerfileName d = true ∧ d ∈ files ∧
      ∀ x ∈ files, isDockerfileName x = true → LexLe d x) ∧
    (List.Sorted LexLe (pick_tests files) ∧
      (∀ x ∈ files, isTestPyName x = true → x ∈ pick_tests files) ∧
      ((∀ x ∈ files, isTestPyName x = false) →
        ∀ x ∈ files, isPyName x = true → sStarts x "issue_" = false →
          x ∈ pick_tests files)) := by
  constructor
  · rcases hc : dockerCands files with _ | ⟨a, tail⟩
    · rw [pick_dockerfile, hc] at h; simp at h
    · rw [pick_dockerfile, hc] at h
      simp only [List.head?_cons, Option.some.injEq] at h
      rw [h] at hc
      have hmem : d ∈ dockerCands files := by rw [hc]; exact List.mem_cons_self d tail
      have hmemf : d ∈ files.filter isDockerfileName := by
        rw [dockerCands] at hmem; exact mem_sortedNames.mp hmem
      have hd : isDockerfileName d = true := (List.mem_filter.mp hmemf).2
      refine ⟨hd, (List.mem_filter.mp hmemf).1, ?_⟩
      intro x hx hdx
      have hxs : x ∈ dockerCands files := by
        rw [dockerCands, mem_sortedNames]
        exact List.mem_filter.mpr ⟨hx, hdx⟩
      rw [hc] at hxs
      rcases List.mem_cons.mp hxs with he | ht
      · subst he; exact lexLe_refl x
      · exact List.rel_of_sorted_cons (hc ▸ sorted_sortedNames (files.filter isDockerfileName)) x ht
  · refine ⟨?_, ?_, ?_⟩
    · rw [pick_tests]
      by_cases he : (sortedNames (files.filter isTestPyName)).isEmpty
      · simp only [he, if_true]
        exact (sorted_sortedNames (files.filter isPyName)).filter _
      · simp only [he, if_false]
        exact sorted_sortedNames (files.filter isTestPyName)
    · intro x hx htx
      have hxs : x ∈ sortedNames (files.filter isTestPyName) := by
        rw [mem_sortedNames]; exact List.mem_filter.mpr ⟨hx, htx⟩
      have hne : (sortedNames (files.filter isTestPyName)).isEmpty = false := by
        rcases hl : sortedNames (files.filter isTestPyName) with _ | _
        · rw [hl] at hxs; simp at hxs
        · simp [List.isEmpty]
      rw [pick_tests]
      simp only [hne, if_false]
      exact hxs
    · intro hnone x hx hpy hni
      have hfil : files.filter isTestPyName = [] := by
        rw [List.filter_eq_nil_iff]
        intro a ha
        simp [hnone a ha]
      have hempty : (sortedNames (files.filter isTestPyName)).isEmpty = true := by
        rw [hfil]
        rfl
      rw [pick_tests]
      simp only [hempty, if_true]
      refine List.mem_filter.mpr ⟨?_, ?_⟩
      · exact mem_sortedNames.mpr (List.mem_filter.mpr ⟨hx, hpy⟩)
      · simp [hni]

/-- C6 witness: the amended selection theorem applied to two concrete
bundle listings — one with a `test*.py` candidate and one exercising the
`*.py` fallback, where the non-descriptor python file is kept. -/
theorem C6_selection_witness :
    ((isDockerfileName "a.dockerfile" = true ∧
      "a.dockerfile" ∈ ["b.dockerfile", "a.dockerfile", "test1.py"] ∧
      ∀ x ∈ ["b.dockerfile", "a.dockerfile", "test1.py"],
        isDockerfileName x = true → LexLe "a.dockerfile" x) ∧
    (List.Sorted LexLe (pick_tests ["b.dockerfile", "a.dockerfile", "test1.py"]) ∧
      (∀ x ∈ ["b.dockerfile", "a.dockerfile", "test1.py"],
        isTestPyName x = true → x ∈ pick_tests ["b.dockerfile", "a.dockerfile", "test1.py"]))) ∧
    "util.py" ∈ pick_tests ["x.dockerfile", "issue_9.json", "util.py"] := by
  have h1 := C6_selection ["b.dockerfile", "a.dockerfile", "test1.py"] "a.dockerfile" (by decide)
  have h2 := C6_selection ["x.dockerfile", "issue_9.json", "util.py"] "x.dockerfile" (by decide)
  exact ⟨⟨h1.1, h1.2.1, h1.2.2.1⟩,
    h2.2.2.2 (by decide) "util.py" (by decide) (by decide) (by decide)⟩

/-- Under the `Reaches` hypotheses, `main` proceeds into the workspace
phase with the values extracted from the first linked-PR record. -/
lemma main_eq_runPhase {env : Env} {issue : Issue} {repo : String} {pr0 : PR}
    {rest : List PR} (h : Reaches env issue repo pr0 rest) :
    main env = runPhase env repo (issue.url.getD "") issue.number
      ((pr0.base_sha).getD "") pr0.head_sha ((pr0.patch).getD "")
      ((dockerCands env.files).headD "") (pick_tests env.files) := by
  obtain ⟨ic, ics, hic⟩ := List.exists_cons_of_ne_nil h.issueFile
  obtain ⟨dc, dcs, hdc⟩ := List.exists_cons_of_ne_nil h.dockerfileFound
  obtain ⟨tc, tcs, htc⟩ := List.exists_cons_of_ne_nil h.testsFound
  simp only [main, h.bundleExists, h.gitFound, h.dockerFound, Bool.not_true,
    Bool.false_eq_true, if_false, hic, h.issueParsed, h.repoParsed, h.linked,
    h.baseTruthy, if_neg h.patchNonblank, hdc, htc, List.headD]

/-- C5: when the patch does not apply cleanly to the base revision, the run
aborts with the patch-apply failure message and exit status 2 before any
docker build command is issued, and the terminal report artifact is never
written. -/
theorem C5_patch_apply_aborts (env : Env) (issue : Issue) (repo : String)
    (pr0 : PR) (rest : List PR) (h : Reaches env issue repo pr0 rest)
    (hc : env.clone.ok = true) (hf : env.fetch.ok = true)
    (hwb : env.wtBase.ok = true) (hwh : env.wtHead.ok = true)
    (ha : env.patchApply.ok = false) :
    (main env).outcome = Outcome.died 2 "git apply patch failed (see git_apply_patch.stderr.txt)" ∧
    (main env).outcome.exitCode ≠ 0 ∧
    (∀ img dfile, Cmd.dockerBuild img dfile ∉ (main env).cmds) ∧
    (∀ v, ("f2p_report.json", v) ∉ (main env).written) := by
  rw [main_eq_runPhase h]
  simp only [runPhase, hc, hf, hwb, hwh, ha, Bool.not_true, Bool.not_false,
    Bool.false_eq_true, if_false, if_true]
  refine ⟨trivial, by simp [Outcome.exitCode], ?_, ?_⟩
  · intro img dfile
    simp
  · intro v
    simp

/-- C5 witness: the abort theorem at a concrete environment whose patch
application fails. -/
theorem C5_witness :
    (main env5).outcome = Outcome.died 2 "git apply patch failed (see git_apply_patch.stderr.txt)" ∧
    (main env5).outcome.exitCode ≠ 0 ∧
    (∀ img dfile, Cmd.dockerBuild img dfile ∉ (main env5).cmds) ∧
    (∀ v, ("f2p_report.json", v) ∉ (main env5).written) :=
  C5_patch_apply_aborts env5 issue0 "always-further/AgentUp" pr0c []
    ⟨rfl, rfl, rfl, by decide, rfl, by rfl, rfl, by decide, by decide, by decide, by decide⟩
    rfl rfl rfl rfl rfl

/-- On build failure, the per-side record carries `test_ok = false` and
`test_exit = null`, and no docker run command is issued. -/
lemma bt_buildFail {b : RunResult} (hb : b.ok = false)
    (run_id label dfile : String) (tests pargs : List String) (t : RunResult) :
    dlookup (build_and_test run_id label dfile tests pargs b t).record "test_ok"
      = some (Val.vbool false) ∧
    dlookup (build_and_test run_id label dfile tests pargs b t).record "test_exit"
      = some Val.null ∧
    ∀ img args2, Cmd.dockerRun img args2 ∉ (build_and_test run_id label dfile tests pargs b t).cmds := by
  refine ⟨?_, ?_, ?_⟩
  · simp [build_and_test, hb, dlookup]
  · simp [build_and_test, hb, dlookup]
  · intro img args2
    simp [build_and_test, hb]

/-- On build success, the per-side record carries the test run's success
flag. -/
lemma bt_buildOk {b : RunResult} (hb : b.ok = true)
    (run_id label dfile : String) (tests pargs : List String) (t : RunResult) :
    dlookup (build_and_test run_id label dfile tests pargs b t).record "test_ok"
      = some (Val.vbool t.ok) := by
  simp [build_and_test, hb, dlookup]

/-- When every workspace step succeeds, the run finishes and the reported
status is the classification of the two per-side `test_ok` truth values. -/
lemma runPhase_status (env : Env) (repo iu : String) (num : Option Nat)
    (bsha : String) (hsha : Option String) (ptxt df : String) (tf : List String)
    (hc : env.clone.ok = true) (hf : env.fetch.ok = true)
    (hwb : env.wtBase.ok = true) (hwh : env.wtHead.ok = true)
    (hap : env.patchApply.ok = true) :
    (runPhase env repo iu num bsha hsha ptxt df tf).outcome.isFinished = true ∧
    statusOf (runPhase env repo iu num bsha hsha ptxt df tf) =
      some (classify
        (valTruthy (dlookup (build_and_test (mk_run_id num env.now) "before" df tf
          (parsePytestArgs env.pytestArgs) env.buildBefore env.testBefore).record "test_ok"))
        (valTruthy (dlookup (build_and_test (mk_run_id num env.now) "after" df tf
          (parsePytestArgs env.pytestArgs) env.buildAfter env.testAfter).record "test_ok"))) := by
  simp only [runPhase, hc, hf, hwb, hwh, hap, Bool.not_true, Bool.false_eq_true, if_false]
  constructor
  · rfl
  · simp only [statusOf]
    rw [dlookup_append_none _ (dlookup_meta_status _ _ _ _ _ _ _ _ _)]
    simp [dlookup]

/-- C2 counterexample: on a failing build the code records
`test_ok = false` — a boolean, not the null/absent value the claim
requires. -/
theorem C2_cex :
    dlookup (build_and_test "rid" "before" "d.dockerfile" ["test.py"] [] failR okR).record "test_ok"
      = some (Val.vbool false) ∧
    some (Val.vbool false) ≠ (some Val.null : Option Val) := by
  constructor
  · rfl
  · simp

/-- C2 (amended): if the container build fails for a side — either side —
the recorded outcome for that side has `test_ok = false` (not null;
`test_exit` is null), the test phase never executes for that side, and the
run still completes and reports a label with that side treated as
non-passing (before-side failure forces a fail2* label, after-side failure
a *2fail label). -/
theorem C2_build_failure (run_id label dfile : String) (tests pargs : List String)
    (b t : RunResult) (hb : b.ok = false)
    (env : Env) (issue : Issue) (repo : String) (pr0 : PR) (rest : List PR)
    (h : Reaches env issue repo pr0 rest) (hc : env.clone.ok = true)
    (hf : env.fetch.ok = true) (hwb : env.wtBase.ok = true)
    (hwh : env.wtHead.ok = true) (hap : env.patchApply.ok = true) :
    (dlookup (build_and_test run_id label dfile tests pargs b t).record "test_ok"
       = some (Val.vbool false) ∧
     dlookup (build_and_test run_id label dfile tests pargs b t).record "test_exit"
       = some Val.null ∧
     ∀ img args2, Cmd.dockerRun img args2 ∉ (build_and_test run_id label dfile tests pargs b t).cmds) ∧
    ((main env).outcome.isFinished = true ∧
     (env.buildBefore.ok = false →
       statusOf (main env) = some "fail2pass" ∨ statusOf (main env) = some "fail2fail") ∧
     (env.buildAfter.ok = false →
       statusOf (main env) = some "fail2fail" ∨ statusOf (main env) = some "pass2fail")) := by
  refine ⟨bt_buildFail hb run_id label dfile tests pargs t, ?_⟩
  rw [main_eq_runPhase h]
  obtain ⟨hfin, hst⟩ := runPhase_status env repo (issue.url.getD "") issue.number
    ((pr0.base_sha).getD "") pr0.head_sha ((pr0.patch).getD "")
    ((dockerCands env.files).headD "") (pick_tests env.files) hc hf hwb hwh hap
  refine ⟨hfin, ?_, ?_⟩
  · intro hbf
    rw [hst, (bt_buildFail hbf _ _ _ _ _ _).1]
    rcases hba : valTruthy (dlookup (build_and_test (mk_run_id issue.number env.now) "after"
        ((dockerCands env.files).headD "") (pick_tests env.files)
        (parsePytestArgs env.pytestArgs) env.buildAfter env.testAfter).record "test_ok") with _ | _
    · right
      simp [valTruthy, classify]
    · left
      simp [valTruthy, classify]
  · intro hba
    rw [hst, (bt_buildFail hba _ _ _ _ _ _).1]
    rcases hbb : valTruthy (dlookup (build_and_test (mk_run_id issue.number env.now) "before"
        ((dockerCands env.files).headD "") (pick_tests env.files)
        (parsePytestArgs env.pytestArgs) env.buildBefore env.testBefore).record "test_ok") with _ | _
    · left
      simp [valTruthy, classify]
    · right
      simp [valTruthy, classify]

/-- C2 witness: the amended theorem at two concrete environments — one
whose `before` build fails (label fail2pass or fail2fail) and one whose
`after` build fails with passing `before` tests (the scenario-D shape,
label fail2fail or pass2fail). -/
theorem C2_witness :
    (dlookup (build_and_test "rid" "before" "d.dockerfile" ["test.py"] [] failR okR).record "test_ok"
       = some (Val.vbool false) ∧
     dlookup (build_and_test "rid" "before" "d.dockerfile" ["test.py"] [] failR okR).record "test_exit"
       = some Val.null ∧
     ∀ img args2, Cmd.dockerRun img args2 ∉ (build_and_test "rid" "before" "d.dockerfile" ["test.py"] [] failR okR).cmds) ∧
    ((main env2).outcome.isFinished = true ∧
     (statusOf (main env2) = some "fail2pass" ∨ statusOf (main env2) = some "fail2fail")) ∧
    ((main env2a).outcome.isFinished = true ∧
     (statusOf (main env2a) = some "fail2fail" ∨ statusOf (main env2a) = some "pass2fail")) := by
  have h2 := C2_build_failure "rid" "before" "d.dockerfile" ["test.py"] [] failR okR rfl
    env2 issue0 "always-further/AgentUp" pr0c []
    ⟨rfl, rfl, rfl, by decide, rfl, by rfl, rfl, by decide, by decide, by decide, by decide⟩
    rfl rfl rfl rfl rfl
  have h2a := C2_build_failure "rid" "before" "d.dockerfile" ["test.py"] [] failR okR rfl
    env2a issue0 "always-further/AgentUp" pr0c []
    ⟨rfl, rfl, rfl, by decide, rfl, by rfl, rfl, by decide, by decide, by decide, by decide⟩
    rfl rfl rfl rfl rfl
  exact ⟨h2.1, ⟨h2.2.1, h2.2.2.1 rfl⟩, ⟨h2a.2.1, h2a.2.2.2 rfl⟩⟩

/-- Every command issued by `build_and_test` is a docker build or a docker
run. -/
lemma bt_cmds_mem {run_id label dfile : String} {tests pargs : List String}
    {b t : RunResult} {c : Cmd}
    (h : c ∈ (build_and_test run_id label dfile tests pargs b t).cmds) :
    (∃ img df2, c = Cmd.dockerBuild img df2) ∨ (∃ img a2, c = Cmd.dockerRun img a2) := by
  cases hb : b.ok
  · simp [build_and_test, hb] at h
    exact Or.inl ⟨_, _, h⟩
  · simp [build_and_test, hb] at h
    rcases h with h | h
    · exact Or.inl ⟨_, _, h⟩
    · exact Or.inr ⟨_, _, h⟩

/-- Every log file written by `build_and_test` is a docker-build or pytest
log named from its label. -/
lemma bt_logs_mem {run_id label dfile : String} {tests pargs : List String}
    {b t : RunResult} {n : String} {v : Val}
    (h : (n, v) ∈ (build_and_test run_id label dfile tests pargs b t).logs) :
    n = "docker_build_" ++ label ++ ".stdout.txt" ∨
    n = "docker_build_" ++ label ++ ".stderr.txt" ∨
    n = "pytest_" ++ label ++ ".stdout.txt" ∨
    n = "pytest_" ++ label ++ ".stderr.txt" := by
  cases hb : b.ok <;> simp [build_and_test, hb] at h <;> tauto

/-- Any worktree-creation command issued by the workspace phase checks out
the base revision. -/
lemma runPhase_worktreeAdd {env : Env} {repo iu : String} {num : Option Nat}
    {bsha : String} {hsha : Option String} {ptxt df : String} {tf : List String}
    {d r : String}
    (h : Cmd.worktreeAdd d r ∈ (runPhase env repo iu num bsha hsha ptxt df tf).cmds) :
    r = bsha := by
  simp only [runPhase] at h
  split at h
  · simp at h
  split at h
  · simp at h
  split at h
  · simp at h
    exact h.2
  split at h
  · simp at h
    rcases h with h | h
    · exact h.2
    · exact h.2
  split at h
  · simp at h
    rcases h with h | h
    · exact h.2
    · exact h.2
  · simp only [List.mem_append] at h
    rcases h with ((h | h) | h) | h
    · simp at h
      rcases h with h | h
      · exact h.2
      · exact h.2
    · rcases bt_cmds_mem h with ⟨i, df2, he⟩ | ⟨i, a2, he⟩ <;> simp at he
    · rcases bt_cmds_mem h with ⟨i, df2, he⟩ | ⟨i, a2, he⟩ <;> simp at he
    · cases hk : env.keepWorkdir <;> simp [hk] at h

/-- The only artifact named `gold_patch.diff` that the workspace phase
writes carries the patch text. -/
lemma runPhase_gold {env : Env} {repo iu : String} {num : Option Nat}
    {bsha : String} {hsha : Option String} {ptxt df : String} {tf : List String}
    {v : Val}
    (h : ("gold_patch.diff", v) ∈ (runPhase env repo iu num bsha hsha ptxt df tf).written) :
    v = Val.vstr ptxt := by
  simp only [runPhase] at h
  split at h
  · simp [metaObj] at h
  split at h
  · simp [metaObj] at h
  split at h
  · simp [metaObj] at h
    exact h
  split at h
  · simp [metaObj] at h
    exact h
  split at h
  · simp [metaObj] at h
    exact h
  · simp only [List.mem_append] at h
    rcases h with ((h | h) | h) | h
    · simp [metaObj] at h
      exact h
    · rcases bt_logs_mem h with he | he | he | he <;> simp at he
    · rcases bt_logs_mem h with he | he | he | he <;> simp at he
    · simp at h

/-- C4 counterexample: a bundle whose linked-PR list starts with a record
lacking a base revision but whose second record is fully valid aborts with
`linked_prs[0] missing base_sha.` instead of selecting the valid record —
refuting "the first record with non-empty base revision and patch is
authoritative". -/
theorem C4_cex :
    (issue4.linked_prs.getD [])[1]? = some prGood ∧
    truthyS prGood.base_sha = true ∧ trimS ((prGood.patch).getD "") ≠ "" ∧
    env4.issueJson = some issue4 ∧
    (main env4).outcome = Outcome.died 2 "linked_prs[0] missing base_sha." := by
  refine ⟨by decide, by decide, by decide, rfl, by rfl⟩

/-- C4 (amended): the pipeline unconditionally selects the *first*
linked-PR record; if that record lacks a truthy base revision or nonblank
patch text the run aborts (even when a later record is valid), and when it
is valid the run proceeds with exactly its base revision (every worktree
checkout uses it) and its patch text (the written patch artifact carries
it). -/
theorem C4_first_record (env : Env) (issue : Issue) (pr0 : PR) (rest : List PR)
    (hbe : env.bundleExists = true) (hg : env.gitFound = true)
    (hdk : env.dockerFound = true) (hif : issueCands env.files ≠ [])
    (hij : env.issueJson = some issue)
    (hrep : ∃ g, parse_repo_from_issue_url (issue.url.getD "") = Except.ok g)
    (hl : issue.linked_prs.getD [] = pr0 :: rest) :
    (truthyS pr0.base_sha = false →
      (main env).outcome = Outcome.died 2 "linked_prs[0] missing base_sha.") ∧
    (truthyS pr0.base_sha = true → trimS ((pr0.patch).getD "") = "" →
      (main env).outcome = Outcome.died 2 "linked_prs[0] missing patch text; cannot apply fix on top of base_sha.") ∧
    (∀ d r, Cmd.worktreeAdd d r ∈ (main env).cmds → some r = pr0.base_sha) ∧
    (∀ v, ("gold_patch.diff", v) ∈ (main env).written → v = Val.vstr ((pr0.patch).getD "")) := by
  obtain ⟨g, hg2⟩ := hrep
  obtain ⟨ic, ics, hic⟩ := List.exists_cons_of_ne_nil hif
  refine ⟨?_, ?_, ?_, ?_⟩
  · intro hb0
    simp [main, hbe, hg, hdk, hic, hij, hg2, hl, hb0]
  · intro hb1 hp
    simp [main, hbe, hg, hdk, hic, hij, hg2, hl, hb1, hp]
  · intro d r hmem
    by_cases hb1 : truthyS pr0.base_sha = true
    · by_cases hp : trimS ((pr0.patch).getD "") = ""
      · simp [main, hbe, hg, hdk, hic, hij, hg2, hl, hb1, hp] at hmem
      · rcases hdc : dockerCands env.files with _ | ⟨dc, dcs⟩
        · simp [main, hbe, hg, hdk, hic, hij, hg2, hl, hb1, hp, hdc] at hmem
        · rcases htc : pick_tests env.files with _ | ⟨tc, tcs⟩
          · simp [main, hbe, hg, hdk, hic, hij, hg2, hl, hb1, hp, hdc, htc] at hmem
          · have hre : Reaches env issue g pr0 rest :=
              ⟨hbe, hg, hdk, hif, hij, hg2, hl, hb1, hp,
               by rw [hdc]; simp, by rw [htc]; simp⟩
            rw [main_eq_runPhase hre] at hmem
            have hr := runPhase_worktreeAdd hmem
            rcases hbs : pr0.base_sha with _ | s
            · rw [hbs] at hb1
              simp [truthyS] at hb1
            · rw [hbs] at hr
              simp only [Option.getD_some] at hr
              rw [hr]
    · have hb0 : truthyS pr0.base_sha = false := by
        cases hx : truthyS pr0.base_sha
        · rfl
        · exact absurd hx hb1
      simp [main, hbe, hg, hdk, hic, hij, hg2, hl, hb0] at hmem
  · intro v hmem
    by_cases hb1 : truthyS pr0.base_sha = true
    · by_cases hp : trimS ((pr0.patch).getD "") = ""
      · simp [main, hbe, hg, hdk, hic, hij, hg2, hl, hb1, hp] at hmem
      · rcases hdc : dockerCands env.files with _ | ⟨dc, dcs⟩
        · simp [main, hbe, hg, hdk, hic, hij, hg2, hl, hb1, hp, hdc] at hmem
        · rcases htc : pick_tests env.files with _ | ⟨tc, tcs⟩
          · simp [main, hbe, hg, hdk, hic, hij, hg2, hl, hb1, hp, hdc, htc] at hmem
          · have hre : Reaches env issue g pr0 rest :=
              ⟨hbe, hg, hdk, hif, hij, hg2, hl, hb1, hp,
               by rw [hdc]; simp, by rw [htc]; simp⟩
            rw [main_eq_runPhase hre] at hmem
            exact runPhase_gold hmem
    · have hb0 : truthyS pr0.base_sha = false := by
        cases hx : truthyS pr0.base_sha
        · rfl
        · exact absurd hx hb1
      simp [main, hbe, hg, hdk, hic, hij, hg2, hl, hb0] at hmem

/-- C4 witness: the amended theorem applied at a concrete valid bundle,
showing the worktree checkout revision is the first record's base
revision. -/
theorem C4_witness : some "abc123" = pr0c.base_sha :=
  (C4_first_record env0 issue0 pr0c [] rfl rfl rfl (by decide) rfl
      ⟨"always-further/AgentUp", by rfl⟩ rfl).2.2.1
    "/w/issue_256-20251012T000000Z/base" "abc123" (by decide)

/-- C3: every worktree-creation command any invocation issues checks out
the first linked-PR record's base revision — the recorded head revision is
never used as the checkout revision for the head worktree. -/
theorem C3_head_from_base (env : Env) (d r : String)
    (h : Cmd.worktreeAdd d r ∈ (main env).cmds) :
    ∃ issue pr0 rest, env.issueJson = some issue ∧
      issue.linked_prs.getD [] = pr0 :: rest ∧ truthyS pr0.base_sha = true ∧
      pr0.base_sha = some r := by
  simp only [main] at h
  split at h
  · simp at h
  split at h
  · simp at h
  split at h
  · simp at h
  split at h
  · simp at h
  split at h
  · simp at h
  rename_i issue heqIssue
  split at h
  · simp at h
  rename_i repo heqRepo
  split at h
  · simp at h
  rename_i pr0 tail heqLinked
  split at h
  · simp at h
  rename_i hbase
  split at h
  · simp at h
  rename_i hpatch
  split at h
  · simp at h
  rename_i dockerfile dtail heqDocker
  split at h
  · simp at h
  rename_i t0 ts heqTests
  have hr := runPhase_worktreeAdd h
  have hb1 : truthyS pr0.base_sha = true := by
    simpa using hbase
  refine ⟨issue, pr0, tail, heqIssue, heqLinked, hb1, ?_⟩
  rcases hbs : pr0.base_sha with _ | s
  · rw [hbs] at hb1
    simp [truthyS] at hb1
  · rw [hbs] at hr
    simp only [Option.getD_some] at hr
    rw [hr]

/-- C3 witness: a concrete run issues the head-worktree command with the
base revision. -/
theorem C3_witness :
    ∃ issue pr0 rest, env0.issueJson = some issue ∧
      issue.linked_prs.getD [] = pr0 :: rest ∧ truthyS pr0.base_sha = true ∧
      pr0.base_sha = some "abc123" :=
  C3_head_from_base env0 "/w/issue_256-20251012T000000Z/head" "abc123" (by decide)

/-- An outcome that finished carries process exit status zero. -/
lemma exitCode_of_isFinished {o : Outcome} (h : o.isFinished = true) :
    o.exitCode = 0 := by
  cases o <;> simp [Outcome.isFinished, Outcome.exitCode] at h ⊢

/-- The workspace phase either dies with exit status 2 or finishes with a
report whose status is a classification of two booleans. -/
lemma runPhase_outcome (env : Env) (repo iu : String) (num : Option Nat)
    (bsha : String) (hsha : Option String) (ptxt df : String) (tf : List String) :
    ((runPhase env repo iu num bsha hsha ptxt df tf).outcome.exitCode = 2 ∧
      (runPhase env repo iu num bsha hsha ptxt df tf).outcome.isFinished = false) ∨
    ((runPhase env repo iu num bsha hsha ptxt df tf).outcome.isFinished = true ∧
      ∃ b a, statusOf (runPhase env repo iu num bsha hsha ptxt df tf) =
        some (classify b a)) := by
  cases hcl : env.clone.ok
  · exact Or.inl (by simp [runPhase, hcl, Outcome.exitCode, Outcome.isFinished])
  cases hfe : env.fetch.ok
  · exact Or.inl (by simp [runPhase, hcl, hfe, Outcome.exitCode, Outcome.isFinished])
  cases hwb : env.wtBase.ok
  · exact Or.inl (by simp [runPhase, hcl, hfe, hwb, Outcome.exitCode, Outcome.isFinished])
  cases hwh : env.wtHead.ok
  · exact Or.inl (by simp [runPhase, hcl, hfe, hwb, hwh, Outcome.exitCode, Outcome.isFinished])
  cases hap : env.patchApply.ok
  · exact Or.inl (by simp [runPhase, hcl, hfe, hwb, hwh, hap, Outcome.exitCode, Outcome.isFinished])
  · obtain ⟨hfin, hst⟩ := runPhase_status env repo iu num bsha hsha ptxt df tf
      hcl hfe hwb hwh hap
    exact Or.inr ⟨hfin, _, _, hst⟩

/-- Every invocation either dies with exit status 2, raises (exit status
1), or finishes with a report carrying a boolean classification. -/
lemma main_outcome_cases (env : Env) :
    ((main env).outcome.exitCode = 2 ∧ (main env).outcome.isFinished = false) ∨
    ((main env).outcome.exitCode = 1 ∧ (main env).outcome.isFinished = false) ∨
    ((main env).outcome.isFinished = true ∧
      ∃ b a, statusOf (main env) = some (classify b a)) := by
  cases hbe : env.bundleExists
  · exact Or.inl (by simp [main, hbe, Outcome.exitCode, Outcome.isFinished])
  cases hg : env.gitFound
  · exact Or.inl (by simp [main, hbe, hg, Outcome.exitCode, Outcome.isFinished])
  cases hdk : env.dockerFound
  · exact Or.inl (by simp [main, hbe, hg, hdk, Outcome.exitCode, Outcome.isFinished])
  rcases hic : issueCands env.files with _ | ⟨ic, ics⟩
  · exact Or.inr (Or.inl (by simp [main, hbe, hg, hdk, hic, Outcome.exitCode, Outcome.isFinished]))
  rcases hij : env.issueJson with _ | issue
  · exact Or.inr (Or.inl (by simp [main, hbe, hg, hdk, hic, hij, Outcome.exitCode, Outcome.isFinished]))
  rcases hpar : parse_repo_from_issue_url (issue.url.getD "") with e | repo
  · exact Or.inr (Or.inl (by simp [main, hbe, hg, hdk, hic, hij, hpar, Outcome.exitCode, Outcome.isFinished]))
  rcases hl : issue.linked_prs.getD [] with _ | ⟨pr0, tail⟩
  · exact Or.inl (by simp [main, hbe, hg, hdk, hic, hij, hpar, hl, Outcome.exitCode, Outcome.isFinished])
  cases hb1 : truthyS pr0.base_sha
  · exact Or.inl (by simp [main, hbe, hg, hdk, hic, hij, hpar, hl, hb1, Outcome.exitCode, Outcome.isFinished])
  by_cases hp : trimS ((pr0.patch).getD "") = ""
  · exact Or.inl (by simp [main, hbe, hg, hdk, hic, hij, hpar, hl, hb1, hp, Outcome.exitCode, Outcome.isFinished])
  rcases hdc : dockerCands env.files with _ | ⟨dc, dcs⟩
  · exact Or.inr (Or.inl (by simp [main, hbe, hg, hdk, hic, hij, hpar, hl, hb1, hp, hdc, Outcome.exitCode, Outcome.isFinished]))
  rcases htc : pick_tests env.files with _ | ⟨tc, tcs⟩
  · exact Or.inl (by simp [main, hbe, hg, hdk, hic, hij, hpar, hl, hb1, hp, hdc, htc, Outcome.exitCode, Outcome.isFinished])
  have hm : main env = runPhase env repo (issue.url.getD "") issue.number
      ((pr0.base_sha).getD "") pr0.head_sha ((pr0.patch).getD "") dc (tc :: tcs) := by
    simp [main, hbe, hg, hdk, hic, hij, hpar, hl, hb1, hp, hdc, htc]
  rw [hm]
  rcases runPhase_outcome env repo (issue.url.getD "") issue.number
      ((pr0.base_sha).getD "") pr0.head_sha ((pr0.patch).getD "") dc (tc :: tcs) with
    hdied | hfin
  · exact Or.inl hdied
  · exact Or.inr (Or.inr hfin)

/-- C7: the process exit status is zero exactly when the run finished with
a classification report, and a finished run always reports one of the four
transition labels (including `fail2fail` and `pass2fail`); every fatal
precondition or workspace failure therefore exits non-zero. -/
theorem C7_exit_status (env : Env) :
    ((main env).outcome.exitCode = 0 ↔ (main env).outcome.isFinished = true) ∧
    ((main env).outcome.isFinished = true →
      statusOf (main env) = some "fail2pass" ∨ statusOf (main env) = some "fail2fail" ∨
      statusOf (main env) = some "pass2pass" ∨ statusOf (main env) = some "pass2fail") := by
  rcases main_outcome_cases env with ⟨he, hf⟩ | ⟨he, hf⟩ | ⟨hf, b, a, hs⟩
  · constructor
    · rw [he, hf]
      simp
    · rw [hf]
      simp
  · constructor
    · rw [he, hf]
      simp
    · rw [hf]
      simp
  · constructor
    · rw [exitCode_of_isFinished hf, hf]
      simp
    · intro _
      rw [hs]
      rcases classify_mem b a with hcl | hcl | hcl | hcl <;> rw [hcl] <;> tauto

/-- C7 witness: a concrete fully successful run exits with status zero and
reports one of the four labels. -/
theorem C7_witness :
    (main env0).outcome.exitCode = 0 ∧
    (statusOf (main env0) = some "fail2pass" ∨ statusOf (main env0) = some "fail2fail" ∨
      statusOf (main env0) = some "pass2pass" ∨ statusOf (main env0) = some "pass2fail") :=
  ⟨(C7_exit_status env0).1.mpr (by rfl), (C7_exit_status env0).2 (by rfl)⟩

/-- The `meta.json` artifact content of the workspace phase, whatever the
step results. -/
lemma runPhase_metaOf (env : Env) (repo iu : String) (num : Option Nat)
    (bsha : String) (hsha : Option String) (ptxt df : String) (tf : List String) :
    metaOf (runPhase env repo iu num bsha hsha ptxt df tf) =
      metaObj (mk_run_id num env.now) env.bundleDir repo iu num bsha hsha df tf := by
  unfold metaOf
  cases hcl : env.clone.ok
  · simp [runPhase, hcl, dlookup]
  cases hfe : env.fetch.ok
  · simp [runPhase, hcl, hfe, dlookup]
  cases hwb : env.wtBase.ok
  · simp [runPhase, hcl, hfe, hwb, dlookup]
  cases hwh : env.wtHead.ok
  · simp [runPhase, hcl, hfe, hwb, hwh, dlookup]
  cases hap : env.patchApply.ok
  · simp [runPhase, hcl, hfe, hwb, hwh, hap, dlookup]
  · simp [runPhase, hcl, hfe, hwb, hwh, hap, dlookup]

/-- C8 counterexample: two distinct invocations (different bundle
directories) sharing the issue number and the UTC timestamp second receive
the *same* run identifier, and when no issue number exists the identifier
is the deterministic `bundle-<ts>` with no random suffix — refuting both
the uniqueness and the random-suffix parts of the claim. -/
theorem C8_cex :
    env8a ≠ env8b ∧
    dlookup (metaOf (main env8a)) "run_id" = dlookup (metaOf (main env8b)) "run_id" ∧
    mk_run_id none "20251012T000000Z" = "bundle-20251012T000000Z" := by
  refine ⟨?_, by rfl, by rfl⟩
  intro h
  exact absurd (congrArg Env.bundleDir h) (by decide)

/-- C8 (amended): the run identifier recorded in `meta.json` is a
deterministic function of the issue number and the UTC timestamp alone —
`issue_<number>-<ts>` for a truthy issue number, `bundle-<ts>` otherwise,
never containing a random component — so identifiers are unique only
across invocations whose issue number or timestamp second differ. -/
theorem C8_run_id (env : Env) (issue : Issue) (repo : String) (pr0 : PR)
    (rest : List PR) (h : Reaches env issue repo pr0 rest) :
    dlookup (metaOf (main env)) "run_id" = some (Val.vstr (mk_run_id issue.number env.now)) ∧
    mk_run_id none env.now = "bundle-" ++ env.now := by
  constructor
  · rw [main_eq_runPhase h, runPhase_metaOf]
    simp [metaObj, dlookup]
  · rfl

/-- C8 witness: the amended run-identifier theorem at a concrete
invocation. -/
theorem C8_witness :
    dlookup (metaOf (main env0)) "run_id" = some (Val.vstr (mk_run_id issue0.number env0.now)) ∧
    mk_run_id none env0.now = "bundle-" ++ env0.now :=
  C8_run_id env0 issue0 "always-further/AgentUp" pr0c []
    ⟨rfl, rfl, rfl, by decide, rfl, by rfl, rfl, by decide, by decide, by decide, by decide⟩

/-- A finished workspace phase writes a report that extends the `meta.json`
content by exactly the status, the two per-side records, and the paths. -/
lemma runPhase_report {env : Env} {repo iu : String} {num : Option Nat}
    {bsha : String} {hsha : Option String} {ptxt df : String} {tf : List String}
    {r m : List (String × Val)}
    (hr : (runPhase env repo iu num bsha hsha ptxt df tf).outcome = Outcome.finished r)
    (hm : dlookup (runPhase env repo iu num bsha hsha ptxt df tf).written "meta.json"
      = some (Val.vobj m)) :
    ∃ s bf af p, r = m ++ [("status", Val.vstr s), ("before", Val.vobj bf),
      ("after", Val.vobj af), ("paths", Val.vobj p)] := by
  cases hcl : env.clone.ok
  · simp [runPhase, hcl] at hr
  cases hfe : env.fetch.ok
  · simp [runPhase, hcl, hfe] at hr
  cases hwb : env.wtBase.ok
  · simp [runPhase, hcl, hfe, hwb] at hr
  cases hwh : env.wtHead.ok
  · simp [runPhase, hcl, hfe, hwb, hwh] at hr
  cases hap : env.patchApply.ok
  · simp [runPhase, hcl, hfe, hwb, hwh, hap] at hr
  · simp only [runPhase, hcl, hfe, hwb, hwh, hap, Bool.not_true, Bool.false_eq_true,
      if_false] at hr hm
    simp only [List.cons_append, List.nil_append, dlookup, if_pos rfl, if_true] at hm
    rw [Option.some_inj] at hm
    have hm3 := Val.vobj.inj hm
    obtain rfl := hm3
    have hr3 := Outcome.finished.inj hr
    exact ⟨_, _, _, _, hr3.symm⟩

/-- C10: every field of the initial `meta.json` record reappears unchanged
in the terminal report, and the report adds exactly the status, the two
per-side outcome records, and the artifact paths. -/
theorem C10_meta_preserved (env : Env) (r m : List (String × Val))
    (hr : (main env).outcome = Outcome.finished r)
    (hm : dlookup (main env).written "meta.json" = some (Val.vobj m)) :
    (∀ k v, dlookup m k = some v → dlookup r k = some v) ∧
    ∃ s bf af p, r = m ++ [("status", Val.vstr s), ("before", Val.vobj bf),
      ("after", Val.vobj af), ("paths", Val.vobj p)] := by
  cases hbe : env.bundleExists
  · simp [main, hbe] at hr
  cases hg : env.gitFound
  · simp [main, hbe, hg] at hr
  cases hdk : env.dockerFound
  · simp [main, hbe, hg, hdk] at hr
  rcases hic : issueCands env.files with _ | ⟨ic, ics⟩
  · simp [main, hbe, hg, hdk, hic] at hr
  rcases hij : env.issueJson with _ | issue
  · simp [main, hbe, hg, hdk, hic, hij] at hr
  rcases hpar : parse_repo_from_issue_url (issue.url.getD "") with e | repo
  · simp [main, hbe, hg, hdk, hic, hij, hpar] at hr
  rcases hl : issue.linked_prs.getD [] with _ | ⟨pr0, tail⟩
  · simp [main, hbe, hg, hdk, hic, hij, hpar, hl] at hr
  cases hb1 : truthyS pr0.base_sha
  · simp [main, hbe, hg, hdk, hic, hij, hpar, hl, hb1] at hr
  by_cases hp : trimS ((pr0.patch).getD "") = ""
  · simp [main, hbe, hg, hdk, hic, hij, hpar, hl, hb1, hp] at hr
  rcases hdc : dockerCands env.files with _ | ⟨dc, dcs⟩
  · simp [main, hbe, hg, hdk, hic, hij, hpar, hl, hb1, hp, hdc] at hr
  rcases htc : pick_tests env.files with _ | ⟨tc, tcs⟩
  · simp [main, hbe, hg, hdk, hic, hij, hpar, hl, hb1, hp, hdc, htc] at hr
  have hmm : main env = runPhase env repo (issue.url.getD "") issue.number
      ((pr0.base_sha).getD "") pr0.head_sha ((pr0.patch).getD "") dc (tc :: tcs) := by
    simp [main, hbe, hg, hdk, hic, hij, hpar, hl, hb1, hp, hdc, htc]
  rw [hmm] at hr hm
  have h2 := runPhase_report hr hm
  refine ⟨?_, h2⟩
  obtain ⟨s, bf, af, p, hrep⟩ := h2
  intro k v hk
  rw [hrep]
  exact dlookup_append_left _ hk

/-- C10 witness: the frame theorem at a concrete finished run. -/
theorem C10_witness :
    (∀ k v, dlookup (metaOf (main env0)) k = some v →
      dlookup (reportOf (main env0)) k = some v) ∧
    ∃ s bf af p, reportOf (main env0) = metaOf (main env0) ++
      [("status", Val.vstr s), ("before", Val.vobj bf),
       ("after", Val.vobj af), ("paths", Val.vobj p)] :=
  C10_meta_preserved env0 (reportOf (main env0)) (metaOf (main env0)) (by rfl) (by rfl)

/-! Helper lemmas for the URL pattern matcher. -/

lemma stripPre_iff : ∀ {p s r : List Char}, stripPre p s = some r ↔ s = p ++ r
  | [], s, r => by simp [stripPre]
  | p :: ps, [], r => by simp [stripPre]
  | p :: ps, c :: cs, r => by
    by_cases h : c = p
    · subst h
      simp only [stripPre, if_pos rfl, List.cons_append, List.cons.injEq, true_and]
      exact stripPre_iff
    · simp [stripPre, h]

lemma takeWhile_all {p : Char → Bool} :
    ∀ {l : List Char}, (∀ c ∈ l, p c = true) → ∀ {x : Char}, p x = false →
      ∀ r : List Char,
      (l ++ x :: r).takeWhile p = l ∧ (l ++ x :: r).dropWhile p = x :: r
  | [], _, x, hx, r => by simp [List.takeWhile, List.dropWhile, hx]
  | a :: l, hl, x, hx, r => by
    have ha : p a = true := hl a (List.mem_cons_self a l)
    have hrest := takeWhile_all (fun c hc => hl c (List.mem_cons_of_mem a hc)) hx r
    simp [List.takeWhile, List.dropWhile, ha, hrest.1, hrest.2]

/-- Characterization of one `[^/]+/` segment parse. -/
lemma seg_iff {s : List Char} {o r : List Char} :
    seg s = some (o, r) ↔ o ≠ [] ∧ '/' ∉ o ∧ s = o ++ '/' :: r := by
  constructor
  · intro h
    unfold seg at h
    split at h
    · rename_i o1 os r1 hto hdo
      have hor : o = o1 :: os ∧ r = r1 := by
        have := Option.some_inj.mp h
        exact ⟨(Prod.mk.injEq _ _ _ _ ▸ this).1.symm, (Prod.mk.injEq _ _ _ _ ▸ this).2.symm⟩
      obtain ⟨rfl, rfl⟩ := hor
      refine ⟨by simp, ?_, ?_⟩
      · intro hc
        have := List.mem_takeWhile_imp (hto ▸ hc)
        simp at this
      · rw [← hto, ← hdo]
        exact (List.takeWhile_append_dropWhile _ _).symm
    · exact absurd h (by simp)
  · rintro ⟨ho, hos, rfl⟩
    have hop : ∀ c ∈ o, (!(c = '/') : Bool) = true := by
      intro c hc
      simp only [Bool.not_eq_true']
      exact decide_eq_false (fun e => hos (e ▸ hc))
    have hslash : (!(('/' : Char) = '/') : Bool) = false := by simp
    have htw := takeWhile_all hop hslash r
    rcases o with _ | ⟨o1, os⟩
    · exact absurd rfl ho
    unfold seg
    rw [htw.1, htw.2]
    rfl

/-- Characterization of the `(?:issues|pull)/\d+` tail. -/
lemma numTail_iff {r2 : List Char} :
    numTail r2 = true ↔ ∃ mid d b, (mid = "issues".data ∨ mid = "pull".data) ∧
      d.isDigit = true ∧ r2 = mid ++ '/' :: d :: b := by
  constructor
  · intro h
    unfold numTail at h
    split at h
    · rename_i d rest hor
      rcases hi : stripPre "issues/".data r2 with _ | ri
      · have hp : stripPre "pull/".data r2 = some (d :: rest) := by
          rw [hi] at hor
          simpa using hor
        refine ⟨"pull".data, d, rest, Or.inr rfl, h, ?_⟩
        have := stripPre_iff.mp hp
        rw [this, show "pull/".data = "pull".data ++ ['/'] from rfl]
        simp
      · have hieq : ri = d :: rest := by
          rw [hi] at hor
          simpa using hor
        refine ⟨"issues".data, d, rest, Or.inl rfl, h, ?_⟩
        have := stripPre_iff.mp hi
        rw [hieq] at this
        rw [this, show "issues/".data = "issues".data ++ ['/'] from rfl]
        simp
    · exact absurd h (by simp)
  · rintro ⟨mid, d, b, hmid, hd, rfl⟩
    rcases hmid with rfl | rfl
    · have hi : stripPre "issues/".data ("issues".data ++ '/' :: d :: b) = some (d :: b) := by
        apply stripPre_iff.mpr
        rw [show "issues/".data = "issues".data ++ ['/'] from rfl]
        simp
      unfold numTail
      rw [hi]
      simpa using hd
    · have hi : stripPre "issues/".data ("pull".data ++ '/' :: d :: b) = none := by rfl
      have hp : stripPre "pull/".data ("pull".data ++ '/' :: d :: b) = some (d :: b) := by
        apply stripPre_iff.mpr
        rw [show "pull/".data = "pull".data ++ ['/'] from rfl]
        simp
      unfold numTail
      rw [hi, hp]
      simpa using hd

/-- Characterization of one anchored attempt of the full pattern. -/
lemma matchAt_iff {s v : List Char} :
    matchAt s = some v ↔ ∃ owner repo r2,
      owner ≠ [] ∧ '/' ∉ owner ∧ repo ≠ [] ∧ '/' ∉ repo ∧ numTail r2 = true ∧
      s = "github.com/".data ++ (owner ++ ('/' :: (repo ++ ('/' :: r2)))) ∧
      v = owner ++ '/' :: repo := by
  constructor
  · intro h
    unfold matchAt at h
    rcases h0 : stripPre "github.com/".data s with _ | r0
    · rw [h0] at h
      simp at h
    rw [h0] at h
    simp only [Option.some_bind] at h
    rcases h1 : seg r0 with _ | ⟨owner, r1⟩
    · rw [h1] at h
      simp at h
    rw [h1] at h
    simp only [Option.some_bind] at h
    rcases h2 : seg r1 with _ | ⟨repo, r2⟩
    · rw [h2] at h
      simp at h
    rw [h2] at h
    simp only [Option.some_bind] at h
    rcases hnum : numTail r2
    · rw [hnum] at h
      simp at h
    rw [hnum] at h
    simp only [if_true] at h
    obtain ⟨ho, hos, hr0⟩ := seg_iff.mp h1
    obtain ⟨hrp, hrs, hr1⟩ := seg_iff.mp h2
    refine ⟨owner, repo, r2, ho, hos, hrp, hrs, hnum, ?_, (Option.some_inj.mp h).symm⟩
    rw [stripPre_iff.mp h0, hr0, hr1]
  · rintro ⟨owner, repo, r2, ho, hos, hrp, hrs, hnum, rfl, rfl⟩
    have h0 : stripPre "github.com/".data
        ("github.com/".data ++ (owner ++ ('/' :: (repo ++ ('/' :: r2)))))
        = some (owner ++ ('/' :: (repo ++ ('/' :: r2)))) := stripPre_iff.mpr rfl
    have h1 : seg (owner ++ ('/' :: (repo ++ ('/' :: r2)))) = some (owner, repo ++ ('/' :: r2)) :=
      seg_iff.mpr ⟨ho, hos, rfl⟩
    have h2 : seg (repo ++ ('/' :: r2)) = some (repo, r2) := seg_iff.mpr ⟨hrp, hrs, rfl⟩
    unfold matchAt
    rw [h0]
    simp only [Option.some_bind]
    rw [h1]
    simp only [Option.some_bind]
    rw [h2]
    simp only [Option.some_bind]
    rw [if_pos hnum]

/-- A successful search decomposes the input into a skipped part and a
suffix matching at its start, with the same capture. -/
lemma reSearch_some {s v : List Char} (h : reSearch s = some v) :
    ∃ a t, s = a ++ t ∧ matchAt t = some v := by
  induction s with
  | nil => exact ⟨[], [], rfl, h⟩
  | cons c cs ih =>
    rw [reSearch] at h
    rcases hm : matchAt (c :: cs) with _ | w
    · rw [hm] at h
      obtain ⟨a, t, hs, hmt⟩ := ih h
      exact ⟨c :: a, t, by rw [hs, List.cons_append], hmt⟩
    · rw [hm] at h
      obtain rfl : w = v := Option.some_inj.mp h
      exact ⟨[], c :: cs, rfl, hm⟩

/-- Conversely, a match at any start position makes the search succeed. -/
lemma reSearch_isSome_of {s a t : List Char} {v : List Char}
    (hs : s = a ++ t) (hm : matchAt t = some v) : ∃ w, reSearch s = some w := by
  subst hs
  induction a with
  | nil =>
    rcases t with _ | ⟨c, cs⟩
    · exact ⟨v, by rw [List.nil_append, reSearch]; exact hm⟩
    · rcases hmc : matchAt (c :: cs) with _ | w
      · rw [hmc] at hm
        simp at hm
      · exact ⟨w, by rw [List.nil_append, reSearch, hmc]⟩
  | cons x a' ih =>
    obtain ⟨w, hw⟩ := ih
    rcases hmx : matchAt (x :: (a' ++ t)) with _ | w2
    · exact ⟨w, by rw [List.cons_append, reSearch, hmx]; exact hw⟩
    · exact ⟨w2, by rw [List.cons_append, reSearch, hmx]⟩

/-- C9: repository extraction succeeds exactly on URLs containing
`github.com/<owner>/<repo>/(issues|pull)/<number>` (owner and repo
nonempty, slash-free, number starting with a digit), it then yields that
`<owner>/<repo>`, and on any other URL (including the absent-URL empty
string) it fails with the unparseable-repo error instead of producing an
identifier. -/
theorem C9_parse_repo (url : String) :
    ((∃ g, parse_repo_from_issue_url url = Except.ok g) ↔ SpecForm url.data) ∧
    (∀ g, parse_repo_from_issue_url url = Except.ok g →
      ∃ owner repo a mid d b, g = String.mk (owner ++ '/' :: repo) ∧
        owner ≠ [] ∧ repo ≠ [] ∧ '/' ∉ owner ∧ '/' ∉ repo ∧
        url.data = a ++ ("github.com/".data ++ (owner ++ ('/' :: (repo ++
          ('/' :: (mid ++ ('/' :: d :: b))))))) ∧
        (mid = "issues".data ∨ mid = "pull".data) ∧ d.isDigit = true) := by
  constructor
  · constructor
    · rintro ⟨g, hg⟩
      unfold parse_repo_from_issue_url at hg
      rcases hr : reSearch url.data with _ | v
      · rw [hr] at hg
        exact absurd hg (by simp)
      · obtain ⟨a, t, hs, hm⟩ := reSearch_some hr
        obtain ⟨owner, repo, r2, ho, hos, hrp, hrs, hnum, ht, hv⟩ := matchAt_iff.mp hm
        obtain ⟨mid, d, b, hmid, hd, hr2⟩ := numTail_iff.mp hnum
        refine ⟨a, owner, repo, mid, d, b, ?_, ho, hrp, hos, hrs, hmid, hd⟩
        rw [hs, ht, hr2]
    · rintro ⟨a, owner, repo, mid, d, b, hs, ho, hrp, hos, hrs, hmid, hd⟩
      have hnum : numTail (mid ++ '/' :: d :: b) = true :=
        numTail_iff.mpr ⟨mid, d, b, hmid, hd, rfl⟩
      have hmt : matchAt ("github.com/".data ++ (owner ++ ('/' :: (repo ++
          ('/' :: (mid ++ ('/' :: d :: b))))))) = some (owner ++ '/' :: repo) :=
        matchAt_iff.mpr ⟨owner, repo, mid ++ '/' :: d :: b, ho, hos, hrp, hrs, hnum,
          rfl, rfl⟩
      obtain ⟨w, hw⟩ := reSearch_isSome_of hs hmt
      exact ⟨String.mk w, by unfold parse_repo_from_issue_url; rw [hw]⟩
  · intro g hg
    unfold parse_repo_from_issue_url at hg
    rcases hr : reSearch url.data with _ | v
    · rw [hr] at hg
      exact absurd hg (by simp)
    · rw [hr] at hg
      have hgv : String.mk v = g := by
        injection hg
      obtain ⟨a, t, hs, hm⟩ := reSearch_some hr
      obtain ⟨owner, repo, r2, ho, hos, hrp, hrs, hnum, ht, hv⟩ := matchAt_iff.mp hm
      obtain ⟨mid, d, b, hmid, hd, hr2⟩ := numTail_iff.mp hnum
      refine ⟨owner, repo, a, mid, d, b, by rw [← hgv, hv], ho, hrp, hos, hrs, ?_,
        hmid, hd⟩
      rw [hs, ht, hr2]

/-- C9 witness: the characterization applied to the example URL from the
script's comment. -/
theorem C9_witness : SpecForm "https://github.com/always-further/AgentUp/issues/256".data :=
  (C9_parse_repo "https://github.com/always-further/AgentUp/issues/256").1.mp
    ⟨"always-further/AgentUp", by rfl⟩

end F2P
